import Mathlib

/-!
Verification of the resumable ETL pipeline (UK legislation ingestion).

This file gives a shallow embedding, in Lean, of the parts of the program
that the checked properties concern:

* `src/utils/checkpoint.py`  — the `CheckpointManager` class: its state
  dictionary, `save`, `_load_checkpoint`, `update_stage`, `update_batch`,
  `mark_processed`, `mark_batch_processed`, `record_error`, `reset`;
* `src/main.py`              — the stage sequencing of `ETLPipeline.run`,
  the item loop of `_run_extract_phase`, and the exit-code computation of
  `main`;
* `src/loaders/sql_loader.py`    — `store_legislation`;
* `src/loaders/vector_loader.py` — `store_embeddings` and
  `_delete_legislation_embeddings`;
* `src/text_transformers/embeddings.py` — the point-id assignment of
  `EmbeddingsGenerator.generate_embeddings`;
* `src/extractors/legislation_scraper.py` — the shape of the dictionaries
  produced by `search_legislation` (keys `title`, `url`, `doc_id`, `year`,
  `number`, `type`, `month`).

Modelling conventions, fixed once here:

* Wall-clock values (`start_time`, `last_update`, the `time` field of a
  recorded error, the duration statistics) are environment inputs.  Fields
  that only ever receive `datetime.now()` / `time.time()` values and are
  never read back by the program are omitted from the state; statistic
  values written from the clock are passed in as opaque parameters.
* A JSON file on disk is modelled by its parse result: `Option PState`
  where `none` means the file exists but fails to parse (truncated or
  corrupt), and the surrounding `Option` of the file-system field records
  whether the file exists at all.
* The embedding model (`SentenceTransformer.encode` plus normalisation)
  and the text chunker are collaborators; they enter the embedding as
  function parameters `encode : String → Vec` and
  `split : String → Nat → List String`.  Embedding vectors are carried
  opaquely as a type parameter `Vec`; the program never inspects them.
* `hashlib.md5(...)[:4]` (the fallback point-id hash of
  `vector_loader.py`) and `hashlib.sha256` (the document-id hash of
  `legislation_scraper.py`) are external library calls and enter as
  function parameters.
-/

namespace Pipeline

/-- Heterogeneous dictionary values: the Python dictionaries modelled here
hold strings and non-negative integers. -/
inductive DictVal where
  | str (s : String)
  | nat (n : Nat)
deriving DecidableEq, Repr

/-- `checkpoint.py`, `update_batch`: the `batch_info` dictionary built in
`main.py` (`_run_extract_phase`) with keys `batch_index`, `batch_size`,
`start_index`, `end_index`. -/
structure BatchInfo where
  batch_index : Nat
  batch_size : Nat
  start_index : Nat
  end_index : Nat
deriving DecidableEq, Repr

/-- `checkpoint.py`, `record_error`: the `state["error"]` dictionary
(`message`, `stage`; the `time` field is a wall-clock value, omitted per
the conventions above). -/
structure ErrorInfo where
  message : String
  stage : Option String
deriving DecidableEq, Repr

/-- The `self.state` dictionary of `CheckpointManager` (`checkpoint.py`,
`__init__`).  `start_time` and `last_update` are wall-clock values,
omitted per the conventions above. -/
structure PState where
  pipeline_id : String
  items_processed : Nat
  processed_ids : List String
  current_batch : Option BatchInfo
  current_stage : Option String
  stats : List (String × DictVal)
  error : Option ErrorInfo
deriving DecidableEq, Repr

/-- The fresh state built in `CheckpointManager.__init__` (and rebuilt,
with the pipeline id retained, in `reset`). -/
def initialState (pid : String) : PState :=
  { pipeline_id := pid
    items_processed := 0
    processed_ids := []
    current_batch := none
    current_stage := none
    stats := []
    error := none }

/-- The checkpoint files on disk: the canonical snapshot
(`self.checkpoint_path`) and the temporary one
(`self.temp_checkpoint_path`).  Each is `none` when the file does not
exist, `some none` when it exists but does not parse, and `some (some s)`
when it parses to state `s`. -/
structure FS where
  canonical : Option (Option PState)
  temp : Option (Option PState)
deriving DecidableEq, Repr

/-- A `CheckpointManager` instance: its in-memory state, the save
interval, and the checkpoint files it owns. -/
structure Manager where
  state : PState
  interval : Nat
  fs : FS
deriving DecidableEq, Repr

/-- `checkpoint.py`, `save`: skip the write unless forced or the
items-processed counter is at a multiple of the interval; otherwise write
the full state to the temporary file and atomically move it over the
canonical file (`shutil.move` removes the source, so the temporary file
is gone afterwards).  Returns whether a write happened. -/
def Manager.save (m : Manager) (force : Bool) : Bool × Manager :=
  if !force && m.state.items_processed % m.interval != 0 then
    (false, m)
  else
    (true, { m with fs := { canonical := some (some m.state), temp := none } })

/-- The intermediate file-system states observable if `save`'s write
sequence (write temporary file, then atomically move it over the
canonical file) is interrupted.  A partial write of the temporary file
leaves arbitrary (possibly unparsable) content there; the move is atomic,
so the canonical file is either untouched or holds the complete new
snapshot. -/
inductive SaveWriteStep (m : Manager) : FS → Prop where
  | start : SaveWriteStep m m.fs
  | midTemp (midContent : Option PState) :
      SaveWriteStep m { m.fs with temp := some midContent }
  | afterMove : SaveWriteStep m { canonical := some (some m.state), temp := none }

/-- `checkpoint.py`, `_load_checkpoint`: if the canonical file is absent,
start fresh; if it parses, adopt the loaded state; if reading/parsing it
raises, fall back to the temporary file when that exists and parses, and
otherwise start fresh.  Every exception is caught, so the function is
total.  Returns whether a checkpoint was loaded, and the resulting
state. -/
def loadCheckpoint (init : PState) (fs : FS) : Bool × PState :=
  match fs.canonical with
  | none => (false, init)
  | some (some loaded) => (true, loaded)
  | some none =>
    match fs.temp with
    | some (some loaded) => (true, loaded)
    | _ => (false, init)

/-- `checkpoint.py`, `update_stage`: set the current stage, then
force-save. -/
def Manager.update_stage (m : Manager) (stage : String) : Manager :=
  let m := { m with state := { m.state with current_stage := some stage } }
  (m.save true).2

/-- Python dictionary assignment `d[k] = v` on an association list:
overwrite in place when the key exists, append otherwise. -/
def dictInsert (l : List (String × DictVal)) (k : String) (v : DictVal) :
    List (String × DictVal) :=
  if l.any (·.1 = k) then l.map (fun p => if p.1 = k then (k, v) else p)
  else l ++ [(k, v)]

/-- `checkpoint.py`, `update_stats`: set one statistic, then save
(unforced). -/
def Manager.update_stats (m : Manager) (k : String) (v : DictVal) : Manager :=
  let m := { m with state := { m.state with stats := dictInsert m.state.stats k v } }
  (m.save false).2

/-- `checkpoint.py`, `update_batch`: record the in-flight batch
descriptor, then save (unforced). -/
def Manager.update_batch (m : Manager) (b : BatchInfo) : Manager :=
  let m := { m with state := { m.state with current_batch := some b } }
  (m.save false).2

/-- `checkpoint.py`, `mark_processed`: when the id is not yet present,
append it, increment the counter and save (unforced); when it is already
present, do nothing at all. -/
def Manager.mark_processed (m : Manager) (item_id : String) : Manager :=
  if item_id ∈ m.state.processed_ids then m
  else
    let m := { m with state :=
      { m.state with
        processed_ids := m.state.processed_ids ++ [item_id]
        items_processed := m.state.items_processed + 1 } }
    (m.save false).2

/-- `checkpoint.py`, `mark_batch_processed`: filter the argument list
down to the entries not already present, append them all, add their
number to the counter, then save (unforced). -/
def Manager.mark_batch_processed (m : Manager) (item_ids : List String) : Manager :=
  let new_items := item_ids.filter (· ∉ m.state.processed_ids)
  let m := { m with state :=
    { m.state with
      processed_ids := m.state.processed_ids ++ new_items
      items_processed := m.state.items_processed + new_items.length } }
  (m.save false).2

/-- `checkpoint.py`, `record_error`: set `state["error"]` with the given
message and stage (falling back to the current stage when the argument is
`None` or empty), then force-save. -/
def Manager.record_error (m : Manager) (msg : String) (stage : Option String) : Manager :=
  let st := match stage with
    | some s => if s = "" then m.state.current_stage else some s
    | none => m.state.current_stage
  let m := { m with state := { m.state with error := some ⟨msg, st⟩ } }
  (m.save true).2

/-- `checkpoint.py`, `reset`: rebuild the initial state, keeping only the
pipeline id, then force-save. -/
def Manager.reset (m : Manager) : Manager :=
  let m := { m with state := initialState m.state.pipeline_id }
  (m.save true).2

/-! ## Document data

The records flowing through the transform and load phases: a cleaned
legislation document with its `content` sections and, after the
embeddings generator ran, its `embeddings` list.  Dictionary reads in the
sources use `.get(key, default)` throughout, so a missing string field and
the empty-string default coincide; only the top-level `id` key, whose
absence the loaders test explicitly, is kept optional. -/

/-- One entry of `legislation_data["content"]`, as read by
`generate_embeddings` (`embeddings.py`) and `store_legislation`
(`sql_loader.py`): keys `section_type`, `section_number`,
`section_title`, `text`, each defaulted to the empty string. -/
structure ContentSection where
  section_type : String
  section_number : String
  section_title : String
  text : String
deriving DecidableEq, Repr

/-- One entry of `legislation_data["embeddings"]`, as built by
`generate_embeddings` (`embeddings.py`) and consumed by both loaders.
`vector` is optional because `store_embeddings` skips entries without a
`"vector"` key; `point_id` is optional because `store_embeddings` falls
back to a hash when the key is absent or not an integer.  The generator's
nested `metadata` sub-dictionary repeats `legislation_id`/`section_idx`/
`chunk_idx` and is read by no modelled code, so it is not represented. -/
structure EmbeddingEntry (Vec : Type) where
  section_idx : Nat
  section_type : String
  section_number : String
  section_title : String
  chunk_idx : Nat
  text : String
  vector : Option Vec
  point_id : Option Nat
deriving DecidableEq, Repr

/-- A legislation-data dictionary as the load phase sees it (`main.py`,
`_run_load_phase` reads it back from the `embedded/` cache):
document-level fields read by `store_legislation`, the `content` sections
and the `embeddings` list.  A missing `content`/`embeddings` key and an
empty list are indistinguishable to all modelled readers (both are tested
with Python truthiness), so each is modelled as a plain list. -/
structure LegDoc (Vec : Type) where
  id : Option String
  title : String
  url : String
  year : String
  type : String
  number : String
  metadata : String
  content : List ContentSection
  embeddings : List (EmbeddingEntry Vec)
deriving DecidableEq, Repr

/-! ## Embeddings generator (`text_transformers/embeddings.py`) -/

/-- `EmbeddingsGenerator.generate_embeddings`: rebuild
`legislation_data["embeddings"]` by walking the content sections in
order, skipping sections with empty text, chunking each section's text,
encoding every chunk, and assigning each produced chunk the next value of
a single counter `point_id_counter` that starts at `0` for every call
(i.e. for every document).  The chunker and the sentence-transformer
model (with its batching and normalisation,
`_split_text_into_chunks` / `_generate_chunk_embeddings`) are external
collaborators and are passed in as `split` and `encode`; `zip(text_chunks,
chunk_embeddings)` with `chunk_embeddings = encode` applied elementwise is
the enumeration below. -/
def generate_embeddings (split : String → Nat → List String) {Vec : Type}
    (encode : String → Vec) (doc : LegDoc Vec) (chunk_size : Nat) : LegDoc Vec :=
  let result := doc.content.enum.foldl
    (fun (acc : Nat × List (EmbeddingEntry Vec)) sp =>
      if sp.2.text = "" then acc
      else
        (split sp.2.text chunk_size).enum.foldl
          (fun (acc2 : Nat × List (EmbeddingEntry Vec)) cp =>
            (acc2.1 + 1, acc2.2 ++
              [{ section_idx := sp.1
                 section_type := sp.2.section_type
                 section_number := sp.2.section_number
                 section_title := sp.2.section_title
                 chunk_idx := cp.1
                 text := cp.2
                 vector := some (encode cp.2)
                 point_id := some acc2.1 }]))
          acc)
    (0, [])
  { doc with embeddings := result.2 }

/-! ## SQL loader (`loaders/sql_loader.py`) -/

/-- A row of the `legislation` table (minus the surrogate `id` and the
`created_at` timestamp, which no modelled code reads). -/
structure DocRow where
  title : String
  url : String
  year : String
  doc_type : String
  number : String
  metadata : String
deriving DecidableEq, Repr

/-- A row of the `legislation_sections` table (minus the surrogate
`id`). -/
structure SectionRow where
  legislation_id : String
  section_idx : Nat
  section_type : String
  section_number : String
  section_title : String
  text : String
deriving DecidableEq, Repr

/-- A row of the `legislation_embeddings` table (minus the surrogate
`id`). -/
structure EmbRefRow where
  legislation_id : String
  section_idx : Nat
  chunk_idx : Nat
  text : String
  embedding_id : String
deriving DecidableEq, Repr

/-- The three tables written by `store_legislation`.  `legislation` is
keyed by its `UNIQUE legislation_id` column. -/
structure SqlDb where
  legislation : List (String × DocRow)
  legislation_sections : List SectionRow
  legislation_embeddings : List EmbRefRow
deriving DecidableEq, Repr

/-- The `embedding_id` string both loaders derive:
`f"{legislation_id}_s{section_idx}_c{chunk_idx}"`. -/
def embId {Vec : Type} (legId : String) (e : EmbeddingEntry Vec) : String :=
  legId ++ "_s" ++ toString e.section_idx ++ "_c" ++ toString e.chunk_idx

/-- `INSERT ... ON CONFLICT (legislation_id) DO UPDATE` /
`INSERT OR REPLACE` on the `legislation` table: replace the (unique —
the column carries a `UNIQUE` constraint, so at most one row matches) row
with this key in place, append otherwise. -/
def upsertDoc : List (String × DocRow) → String → DocRow → List (String × DocRow)
  | [], k, v => [(k, v)]
  | p :: t, k, v => if p.1 = k then (k, v) :: t else p :: upsertDoc t k v

/-- The section rows inserted for a document: `enumerate` over its
content. -/
def sectionRows (legId : String) (content : List ContentSection) : List SectionRow :=
  content.enum.map (fun p =>
    { legislation_id := legId
      section_idx := p.1
      section_type := p.2.section_type
      section_number := p.2.section_number
      section_title := p.2.section_title
      text := p.2.text })

/-- The embedding-reference rows inserted for a document. -/
def embRows {Vec : Type} (legId : String) (entries : List (EmbeddingEntry Vec)) :
    List EmbRefRow :=
  entries.map (fun e =>
    { legislation_id := legId
      section_idx := e.section_idx
      chunk_idx := e.chunk_idx
      text := e.text
      embedding_id := embId legId e })

/-- The `UNIQUE (embedding_id)` constraint check for the
embedding-reference inserts of `store_legislation`: the freshly derived
ids must be pairwise distinct and must not collide with any row of
another document remaining in the table after this document's rows are
deleted. -/
def embInsertOk {Vec : Type} (embs : List EmbRefRow) (legId : String)
    (es : List (EmbeddingEntry Vec)) : Prop :=
  ((embRows legId es).map (·.embedding_id)).Nodup
  ∧ ∀ r ∈ embs.filter (fun r => r.legislation_id ≠ legId),
      r.embedding_id ∉ (embRows legId es).map (·.embedding_id)

instance {Vec : Type} (embs : List EmbRefRow) (legId : String)
    (es : List (EmbeddingEntry Vec)) : Decidable (embInsertOk embs legId es) := by
  unfold embInsertOk
  infer_instance

/-- `SQLLoader.store_legislation`: refuse documents without an `id`;
upsert the main row; when `content` is non-empty, delete this document's
section rows and insert the enumerated current set; when `embeddings` is
non-empty, delete this document's embedding-reference rows and insert the
current set.  An insert that would violate the table's
`UNIQUE (embedding_id)` constraint raises, and the surrounding
try/except rolls the transaction back and returns `False` with the
database unchanged (the transactional sqlite backend; the postgresql
branch performs the identical statements).  Section inserts cannot
violate `UNIQUE (legislation_id, section_idx)`: the indices come from
`enumerate` after a delete of the same key. -/
def store_legislation {Vec : Type} (db : SqlDb) (doc : LegDoc Vec) : Bool × SqlDb :=
  match doc.id with
  | none => (false, db)
  | some legId =>
    let newDocs := upsertDoc db.legislation legId
      { title := doc.title, url := doc.url, year := doc.year
        doc_type := doc.type, number := doc.number, metadata := doc.metadata }
    let newSecs :=
      if doc.content.isEmpty then db.legislation_sections
      else db.legislation_sections.filter (fun r => r.legislation_id ≠ legId)
        ++ sectionRows legId doc.content
    if doc.embeddings.isEmpty then
      (true, { legislation := newDocs, legislation_sections := newSecs
               legislation_embeddings := db.legislation_embeddings })
    else
      if embInsertOk db.legislation_embeddings legId doc.embeddings then
        (true, { legislation := newDocs, legislation_sections := newSecs
                 legislation_embeddings :=
                   db.legislation_embeddings.filter (fun r => r.legislation_id ≠ legId)
                     ++ embRows legId doc.embeddings })
      else
        (false, db)

/-! ## Vector loader (`loaders/vector_loader.py`) -/

/-- A Qdrant point as built in `store_embeddings`: numeric id, vector,
and the payload fields. -/
structure VPoint (Vec : Type) where
  id : Nat
  vector : Vec
  legislation_id : String
  section_idx : Nat
  section_type : String
  section_number : String
  section_title : String
  chunk_idx : Nat
  text : String
  original_id : String
deriving DecidableEq, Repr

/-- The collection `legislation_embeddings` of the vector store. -/
abbrev VectorDb (Vec : Type) := List (VPoint Vec)

/-- The points built in `store_embeddings`'s loop: entries without a
`"vector"` key are skipped; the point id is the generator's `point_id`
when present (it always is an integer when present in the model), and
otherwise the first four bytes of `md5(f"{legId}_s{s}_c{c}")` as a
big-endian integer — the latter is an external hash, passed in as
`md5trunc`. -/
def buildPoints (md5trunc : String → Nat) {Vec : Type} (legId : String)
    (entries : List (EmbeddingEntry Vec)) : List (VPoint Vec) :=
  entries.filterMap (fun e =>
    match e.vector with
    | none => none
    | some v => some
      { id := match e.point_id with
          | some n => n
          | none => md5trunc (embId legId e)
        vector := v
        legislation_id := legId
        section_idx := e.section_idx
        section_type := e.section_type
        section_number := e.section_number
        section_title := e.section_title
        chunk_idx := e.chunk_idx
        text := e.text
        original_id := embId legId e })

/-- `_delete_legislation_embeddings`: delete every point whose payload
`legislation_id` matches. -/
def deleteLegislation {Vec : Type} (ps : VectorDb Vec) (legId : String) : VectorDb Vec :=
  ps.filter (fun q => q.legislation_id ≠ legId)

/-- Qdrant `upsert` of a single point: replace any point with the same
id, i.e. remove it and add the new point. -/
def upsertPoint {Vec : Type} (ps : VectorDb Vec) (p : VPoint Vec) : VectorDb Vec :=
  ps.filter (fun q => q.id ≠ p.id) ++ [p]

/-- `upsert` of a point list, point by point in order.  `store_embeddings`
uploads in slices of 500, in order; consecutive upserts of the slices
equal one pass over the concatenation, which is what is written here. -/
def upsertPoints {Vec : Type} : VectorDb Vec → List (VPoint Vec) → VectorDb Vec
  | ps, [] => ps
  | ps, p :: rest => upsertPoints (upsertPoint ps p) rest

/-- `VectorLoader.store_embeddings`: refuse documents whose `embeddings`
list is missing or empty, or whose `id` is missing or falsy; otherwise
delete all of this document's points and upsert the freshly built
ones. -/
def store_embeddings (md5trunc : String → Nat) {Vec : Type}
    (ps : VectorDb Vec) (doc : LegDoc Vec) : Bool × VectorDb Vec :=
  if doc.embeddings.isEmpty then (false, ps)
  else
    match doc.id with
    | none => (false, ps)
    | some legId =>
      if legId = "" then (false, ps)
      else
        (true, upsertPoints (deleteLegislation ps legId)
          (buildPoints md5trunc legId doc.embeddings))

/-- One iteration of `_run_load_phase`'s per-file body (`main.py`): the
structured-store write followed by the vector-store write, with the pair
of success flags. -/
def loadDocument (md5trunc : String → Nat) {Vec : Type}
    (sql : SqlDb) (vec : VectorDb Vec) (doc : LegDoc Vec) :
    (Bool × Bool) × SqlDb × VectorDb Vec :=
  let s := store_legislation sql doc
  let v := store_embeddings md5trunc vec doc
  ((s.1, v.1), s.2, v.2)

/-! ## Stage runner (`main.py`, `ETLPipeline.run` and `main`) -/

/-- Python truthiness of the `current_stage` checkpoint value: `None` and
the empty string are falsy. -/
def isFalsy : Option String → Bool
  | none => true
  | some s => s = ""

/-- The stages whose guard in `run` holds for a given starting
`current_stage` (which `run` reads once, before the `try` block, and
never re-reads):
`if not current_stage or current_stage == "extract"` runs extract,
`if not current_stage or current_stage in ["extract", "transform"]` runs
transform, and
`if not current_stage or current_stage in ["extract", "transform",
"load"]` runs load. -/
def executedStages (cur : Option String) : List String :=
  (if isFalsy cur || cur == some "extract" then ["extract"] else [])
  ++ (if isFalsy cur || cur == some "extract" || cur == some "transform" then
        ["transform"] else [])
  ++ (if isFalsy cur || cur == some "extract" || cur == some "transform"
        || cur == some "load" then ["load"] else [])

/-- Observable stage events of one `run`: a `update_stage` call (which
force-saves) and the execution of a stage body. -/
inductive Event where
  | update (s : String)
  | phase (s : String)
deriving DecidableEq, Repr

/-- The body of `run`'s `try` block over a list of stages still to
execute: for each stage, `update_stage` first, then the stage body, whose
outcome is supplied by the oracle `f` (`.error e` models the body raising
with message `e`).  A raise is caught by the surrounding `except`, which
calls `record_error(str(e))` (stage argument `None`) and returns `False`.
When every stage succeeded, `update_stage("complete")` runs, the two
final statistics (`total_duration`, wall clock — passed in opaquely as
`dur` and `doneAt`) are recorded, and `run` returns `True`. -/
def runStagesAux (f : String → Except String Unit) (dur doneAt : DictVal) :
    Manager → List String → Bool × Manager × List Event
  | m, [] =>
    let m := m.update_stage "complete"
    let m := m.update_stats "total_duration" dur
    let m := m.update_stats "completed_at" doneAt
    (true, m, [.update "complete"])
  | m, s :: rest =>
    let m := m.update_stage s
    match f s with
    | .ok _ =>
      let r := runStagesAux f dur doneAt m rest
      (r.1, r.2.1, .update s :: .phase s :: r.2.2)
    | .error e => (false, m.record_error e none, [.update s, .phase s])

/-- `ETLPipeline.run`: after successful database initialisation
(`initOk`; a failed initialisation returns `False` before any stage), the
guarded stage sequence runs under the captured starting
`current_stage`. -/
def runPipeline (f : String → Except String Unit) (dur doneAt : DictVal)
    (initOk : Bool) (m : Manager) : Bool × Manager × List Event :=
  if initOk then runStagesAux f dur doneAt m (executedStages m.state.current_stage)
  else (false, m, [])

/-- `main`: `sys.exit(0 if success else 1)`. -/
def exitCode (success : Bool) : Nat := if success then 0 else 1

/-- The first stage of a list whose body fails under the oracle, with its
error message. -/
def firstError (f : String → Except String Unit) : List String → Option (String × String)
  | [] => none
  | s :: rest =>
    match f s with
    | .error e => some (s, e)
    | .ok _ => firstError f rest

/-! ## Extract phase (`main.py`, `_run_extract_phase`, and the search
result shape of `extractors/legislation_scraper.py`) -/

/-- One search result of `LegislationScraper.search_legislation`: the
dictionary literal built per result row has exactly the keys `title`,
`url`, `doc_id`, `year`, `number`, `type` (strings) and `month` (an
integer).  In particular it has no `id` key. -/
structure SearchItem where
  title : String
  url : String
  doc_id : String
  year : String
  number : String
  type : String
  month : Nat
deriving DecidableEq, Repr

/-- Python `item.get(key)` on a search-result dictionary: `None` for any
key other than the seven present ones — in particular for `"id"`. -/
def SearchItem.get (it : SearchItem) (key : String) : Option DictVal :=
  if key = "title" then some (.str it.title)
  else if key = "url" then some (.str it.url)
  else if key = "doc_id" then some (.str it.doc_id)
  else if key = "year" then some (.str it.year)
  else if key = "number" then some (.str it.number)
  else if key = "type" then some (.str it.type)
  else if key = "month" then some (.nat it.month)
  else none

/-- What `_run_extract_phase` uses of a successful
`fetch_legislation_content` result: the dictionary is non-empty (truthy)
and carries an `id` key, set by the scraper to
`sha256(url).hexdigest()` (`_generate_legislation_id`); the raw content
written to the cache is not read by any modelled code. -/
structure FetchedDoc where
  id : String
deriving DecidableEq, Repr

/-- The slices `search_results[i : i + batch_size]` of the batch loop
`for i in range(0, len(search_results), batch_size)`, via an explicit
fuel argument so the function reduces definitionally. -/
def listChunksAux {α : Type} (b : Nat) : Nat → List α → List (List α)
  | 0, _ => []
  | _, [] => []
  | fuel + 1, l => l.take b :: listChunksAux b fuel (l.drop b)

/-- The batches of the extract phase, in order.  A zero batch size makes
the Python `range` raise before any iteration; the phase is only called
with positive configured batch sizes. -/
def listChunks {α : Type} (b : Nat) (l : List α) : List (List α) :=
  if b = 0 then [] else listChunksAux b l.length l

/-- `ETLPipeline._run_extract_phase`: capture
`set(checkpoint.get_processed_ids())` once; truncate the search results
when `max_items` is truthy; record the `total_items` statistic; then loop
over the batches, recording each batch descriptor, and for each item skip
it when `item.get('id')` is a member of the captured set, and otherwise
call `fetch_legislation_content` (supplied as the collaborator `fetch`;
`none` models both a `None` result and a raised-and-caught per-item
error) and mark the returned document's `id` processed.  Returns the list
of items for which a fetch was attempted, with the updated manager. -/
def extractPhase (m : Manager) (items : List SearchItem) (batch_size : Nat)
    (max_items : Option Nat) (fetch : SearchItem → Option FetchedDoc) :
    List SearchItem × Manager :=
  let processed := m.state.processed_ids
  let items := match max_items with
    | some n => if n = 0 then items else items.take n
    | none => items
  let m := m.update_stats "total_items" (.nat items.length)
  let r := (listChunks batch_size items).foldl
    (fun (st : List SearchItem × Manager × Nat) batch =>
      let m := st.2.1.update_batch
        { batch_index := st.2.2 / batch_size + 1
          batch_size := batch.length
          start_index := st.2.2
          end_index := st.2.2 + batch.length }
      let inner := batch.foldl
        (fun (st2 : List SearchItem × Manager) item =>
          let skip : Bool := match item.get "id" with
            | some (.str s) => processed.contains s
            | _ => false
          if skip then st2
          else
            match fetch item with
            | none => (st2.1 ++ [item], st2.2)
            | some data => (st2.1 ++ [item], st2.2.mark_processed data.id))
        (st.1, m)
      (inner.1, inner.2, st.2.2 + batch_size))
    ([], m, 0)
  (r.1, r.2.1)

/-! ## Shared lemmas about the checkpoint manager -/

theorem save_snd_state (m : Manager) (f : Bool) : (m.save f).2.state = m.state := by
  unfold Manager.save
  split <;> rfl

theorem save_snd_interval (m : Manager) (f : Bool) :
    (m.save f).2.interval = m.interval := by
  unfold Manager.save
  split <;> rfl

theorem mark_processed_of_mem {m : Manager} {i : String}
    (h : i ∈ m.state.processed_ids) : m.mark_processed i = m := by
  unfold Manager.mark_processed
  rw [if_pos h]

theorem mark_processed_state (m : Manager) (i : String)
    (h : i ∉ m.state.processed_ids) :
    (m.mark_processed i).state.processed_ids = m.state.processed_ids ++ [i]
    ∧ (m.mark_processed i).state.items_processed = m.state.items_processed + 1 := by
  unfold Manager.mark_processed
  rw [if_neg h]
  constructor <;> rw [save_snd_state]

theorem mem_mark_processed (m : Manager) (i : String) :
    i ∈ (m.mark_processed i).state.processed_ids := by
  by_cases h : i ∈ m.state.processed_ids
  · rw [mark_processed_of_mem h]; exact h
  · rw [(mark_processed_state m i h).1]
    exact List.mem_append_right _ (List.mem_singleton.mpr rfl)

theorem mark_batch_state (m : Manager) (ids : List String) :
    (m.mark_batch_processed ids).state.processed_ids
      = m.state.processed_ids ++ ids.filter (· ∉ m.state.processed_ids)
    ∧ (m.mark_batch_processed ids).state.items_processed
      = m.state.items_processed + (ids.filter (· ∉ m.state.processed_ids)).length := by
  unfold Manager.mark_batch_processed
  constructor <;> rw [save_snd_state]

theorem filter_not_mem_append_filter (l ids : List String) :
    ids.filter (· ∉ l ++ ids.filter (· ∉ l)) = [] := by
  rw [List.filter_eq_nil_iff]
  intro x hx
  simp only [List.mem_append, List.mem_filter, decide_eq_true_eq, not_not]
  by_cases h : x ∈ l
  · exact Or.inl h
  · exact Or.inr ⟨hx, by simpa using h⟩

/-! ## Claim C5 -/

/-- Claim C5: `save` persists via write-temporary-then-atomic-move — any
interruption of the write sequence leaves the canonical snapshot either
untouched or equal to the complete new snapshot, so the previous durable
snapshot is never corrupted — and `save(force=True)` always persists the
full current state immediately, regardless of the items-processed counter
and the save interval. -/
theorem save_write_discipline :
    (∀ (m : Manager) (fs' : FS), SaveWriteStep m fs' →
      fs'.canonical = m.fs.canonical ∨ fs'.canonical = some (some m.state))
    ∧ ∀ m : Manager,
      (m.save true).1 = true
      ∧ (m.save true).2.fs = { canonical := some (some m.state), temp := none }
      ∧ SaveWriteStep m (m.save true).2.fs := by
  constructor
  · intro m fs' h
    cases h with
    | start => exact Or.inl rfl
    | midTemp c => exact Or.inl rfl
    | afterMove => exact Or.inr rfl
  · intro m
    exact ⟨rfl, rfl, SaveWriteStep.afterMove⟩

/-- Concrete witness for C5: a manager with no checkpoint files yet,
interrupted after a partial (corrupt) write of the temporary file, still
shows the untouched canonical snapshot. -/
theorem save_write_discipline_witness :
    SaveWriteStep ⟨initialState "p", 50, ⟨none, none⟩⟩ ⟨none, some none⟩
    ∧ ((⟨none, some none⟩ : FS).canonical = (⟨none, none⟩ : FS).canonical
        ∨ (⟨none, some none⟩ : FS).canonical = some (some (initialState "p"))) :=
  ⟨SaveWriteStep.midTemp none,
    save_write_discipline.1 ⟨initialState "p", 50, ⟨none, none⟩⟩ _
      (SaveWriteStep.midTemp none)⟩

/-! ## Claim C6 -/

/-- Claim C6: `mark_processed` on an already-present id leaves the
manager (in particular `processed_ids` and the counter) unchanged;
`mark_batch_processed` appends exactly the ids not already present and
adds their number to the counter; and repeating either call with the same
arguments is a no-op for the counter and the processed-id list. -/
theorem mark_processed_idempotent :
    (∀ (m : Manager) (i : String), i ∈ m.state.processed_ids →
      m.mark_processed i = m)
    ∧ (∀ (m : Manager) (ids : List String),
        (m.mark_batch_processed ids).state.processed_ids
          = m.state.processed_ids ++ ids.filter (· ∉ m.state.processed_ids)
        ∧ (m.mark_batch_processed ids).state.items_processed
          = m.state.items_processed + (ids.filter (· ∉ m.state.processed_ids)).length)
    ∧ (∀ (m : Manager) (i : String),
        (m.mark_processed i).mark_processed i = m.mark_processed i)
    ∧ ∀ (m : Manager) (ids : List String),
        ((m.mark_batch_processed ids).mark_batch_processed ids).state.processed_ids
          = (m.mark_batch_processed ids).state.processed_ids
        ∧ ((m.mark_batch_processed ids).mark_batch_processed ids).state.items_processed
          = (m.mark_batch_processed ids).state.items_processed := by
  refine ⟨fun m i h => mark_processed_of_mem h, fun m ids => mark_batch_state m ids,
    ?_, ?_⟩
  · intro m i
    exact mark_processed_of_mem (mem_mark_processed m i)
  · intro m ids
    have h0 := mark_batch_state m ids
    have h1 := mark_batch_state (m.mark_batch_processed ids) ids
    rw [h1.1, h1.2, h0.1, filter_not_mem_append_filter]
    simp

/-- Concrete witness for C6: marking `"a"` twice from a fresh state, the
second call changes nothing. -/
theorem mark_processed_idempotent_witness :
    "a" ∈ (Manager.mark_processed ⟨initialState "p", 50, ⟨none, none⟩⟩ "a").state.processed_ids
    ∧ (((⟨initialState "p", 50, ⟨none, none⟩⟩ : Manager).mark_processed "a").mark_processed "a")
        = (⟨initialState "p", 50, ⟨none, none⟩⟩ : Manager).mark_processed "a" :=
  ⟨by decide,
    mark_processed_idempotent.1 _ "a" (by decide)⟩

/-! ## Claim C9 -/

/-- Claim C9: `reset` returns every progress field to its initial value —
`processed_ids` empty, the counter zero, `current_stage` and
`current_batch` cleared, `stats` empty, the recorded error cleared —
keeps the pipeline id, and force-saves the resulting state. -/
theorem reset_clears_progress :
    ∀ m : Manager,
      m.reset.state.processed_ids = []
      ∧ m.reset.state.items_processed = 0
      ∧ m.reset.state.current_stage = none
      ∧ m.reset.state.current_batch = none
      ∧ m.reset.state.stats = []
      ∧ m.reset.state.error = none
      ∧ m.reset.state.pipeline_id = m.state.pipeline_id
      ∧ m.reset.fs = { canonical := some (some m.reset.state), temp := none } :=
  fun _ => ⟨rfl, rfl, rfl, rfl, rfl, rfl, rfl, rfl⟩

/-! ## Claim C10 -/

/-- The implicit counter invariant: `items_processed` equals the number
of identifiers recorded in `processed_ids` — counted as a set, which is
how the specification's data model (`processedIds: set`) reads the
list. -/
def processedInv (s : PState) : Prop :=
  s.items_processed = s.processed_ids.toFinset.card

instance (s : PState) : Decidable (processedInv s) := by
  unfold processedInv
  infer_instance

/-- Claim C10: the invariant `items_processed = |processedIds|` is
preserved by every `mark_processed` call, by every
`mark_batch_processed` call on a duplicate-free argument list, and by
`reset`; an argument list repeating a not-yet-present identifier can
break it. -/
theorem counter_matches_processed_ids :
    (∀ (m : Manager) (i : String),
      processedInv m.state → processedInv (m.mark_processed i).state)
    ∧ (∀ (m : Manager) (ids : List String),
        processedInv m.state → ids.Nodup →
        processedInv (m.mark_batch_processed ids).state)
    ∧ (∀ m : Manager, processedInv m.reset.state)
    ∧ ∃ (m : Manager) (ids : List String),
        processedInv m.state ∧ ¬ids.Nodup
        ∧ ¬processedInv (m.mark_batch_processed ids).state := by
  refine ⟨?_, ?_, ?_, ?_⟩
  · intro m i h
    by_cases hm : i ∈ m.state.processed_ids
    · rw [mark_processed_of_mem hm]
      exact h
    · unfold processedInv at h ⊢
      rw [(mark_processed_state m i hm).1, (mark_processed_state m i hm).2]
      have ht : (m.state.processed_ids ++ [i]).toFinset
          = insert i m.state.processed_ids.toFinset := by
        simp only [List.toFinset_append, List.toFinset_cons, List.toFinset_nil,
          insert_emptyc_eq]
        rw [Finset.union_comm, Finset.insert_eq]
      rw [ht, Finset.card_insert_of_not_mem (by simpa using hm), h]
  · intro m ids h hn
    unfold processedInv at h ⊢
    rw [(mark_batch_state m ids).1, (mark_batch_state m ids).2, h,
      List.toFinset_append]
    have hnodup : (ids.filter (· ∉ m.state.processed_ids)).Nodup := hn.filter _
    have hdisj : Disjoint m.state.processed_ids.toFinset
        (ids.filter (· ∉ m.state.processed_ids)).toFinset := by
      rw [Finset.disjoint_right]
      intro x hx
      simp only [List.mem_toFinset, List.mem_filter, decide_eq_true_eq] at hx ⊢
      exact hx.2
    rw [Finset.card_union_of_disjoint hdisj, List.toFinset_card_of_nodup hnodup]
  · intro m
    unfold processedInv
    rfl
  · exact ⟨⟨initialState "p", 50, ⟨none, none⟩⟩, ["x", "x"],
      by decide, by decide, by decide⟩

/-- Concrete witness for C10: the invariant holds after marking `"x"`
from a fresh state. -/
theorem counter_matches_processed_ids_witness :
    processedInv (Manager.mark_processed ⟨initialState "p", 50, ⟨none, none⟩⟩ "x").state :=
  counter_matches_processed_ids.1 ⟨initialState "p", 50, ⟨none, none⟩⟩ "x" (by decide)

/-! ## Claims C4 and C8 (stage runner) -/

theorem runStagesAux_trace_of_ok (f : String → Except String Unit)
    (dur doneAt : DictVal) (hf : ∀ s, f s = .ok ()) :
    ∀ (L : List String) (m : Manager),
      (runStagesAux f dur doneAt m L).2.2
        = L.flatMap (fun s => [Event.update s, Event.phase s]) ++ [Event.update "complete"] := by
  intro L
  induction L with
  | nil => intro m; rfl
  | cons s rest ih =>
    intro m
    simp [runStagesAux, hf s, ih]

/-- Claim C4: with the checkpointed `current_stage` unset, `run` executes
extract, transform and load in order; with it set to one of the three
stage names, `run` re-executes that stage and every later one and no
earlier one; with it `complete`, no stage body executes; and every stage
transition (`update_stage`) sets the stage and force-saves before the
stage body runs — in the event trace each `phase s` is immediately
preceded by its `update s`. -/
theorem run_stage_sequencing :
    ∀ (m : Manager) (f : String → Except String Unit) (dur doneAt : DictVal),
      (∀ s, f s = .ok ()) →
      ((m.state.current_stage = none →
        (runPipeline f dur doneAt true m).2.2
          = [.update "extract", .phase "extract", .update "transform", .phase "transform",
             .update "load", .phase "load", .update "complete"])
      ∧ (m.state.current_stage = some "extract" →
        (runPipeline f dur doneAt true m).2.2
          = [.update "extract", .phase "extract", .update "transform", .phase "transform",
             .update "load", .phase "load", .update "complete"])
      ∧ (m.state.current_stage = some "transform" →
        (runPipeline f dur doneAt true m).2.2
          = [.update "transform", .phase "transform", .update "load", .phase "load",
             .update "complete"])
      ∧ (m.state.current_stage = some "load" →
        (runPipeline f dur doneAt true m).2.2
          = [.update "load", .phase "load", .update "complete"])
      ∧ (m.state.current_stage = some "complete" →
        (runPipeline f dur doneAt true m).2.2 = [.update "complete"])
      ∧ ∀ (m' : Manager) (s : String),
          (m'.update_stage s).state.current_stage = some s
          ∧ (m'.update_stage s).fs
              = { canonical := some (some (m'.update_stage s).state), temp := none }) := by
  intro m f dur doneAt hf
  have ht := runStagesAux_trace_of_ok f dur doneAt hf
  refine ⟨?_, ?_, ?_, ?_, ?_, fun m' s => ⟨rfl, rfl⟩⟩ <;>
    · intro h
      show (runStagesAux f dur doneAt m (executedStages m.state.current_stage)).2.2 = _
      rw [ht, h]
      decide

/-- Concrete witness for C4: a fresh checkpoint (stage unset) runs all
three stages in order, each transition saved before its body. -/
theorem run_stage_sequencing_witness :
    (runPipeline (fun _ => .ok ()) (.nat 0) (.nat 0) true
        ⟨initialState "p", 50, ⟨none, none⟩⟩).2.2
      = [.update "extract", .phase "extract", .update "transform", .phase "transform",
         .update "load", .phase "load", .update "complete"] :=
  (run_stage_sequencing ⟨initialState "p", 50, ⟨none, none⟩⟩ (fun _ => .ok ())
    (.nat 0) (.nat 0) (fun _ => rfl)).1 rfl

theorem runStagesAux_error_spec (f : String → Except String Unit)
    (dur doneAt : DictVal) :
    ∀ (L : List String) (m : Manager),
      (∀ s e, firstError f L = some (s, e) →
        (runStagesAux f dur doneAt m L).1 = false
        ∧ (runStagesAux f dur doneAt m L).2.1.state.current_stage = some s
        ∧ (runStagesAux f dur doneAt m L).2.1.state.error = some ⟨e, some s⟩
        ∧ (runStagesAux f dur doneAt m L).2.1.fs
            = { canonical := some (some (runStagesAux f dur doneAt m L).2.1.state),
                temp := none })
      ∧ (firstError f L = none → (runStagesAux f dur doneAt m L).1 = true) := by
  intro L
  induction L with
  | nil =>
    intro m
    exact ⟨fun s e h => by simp [firstError] at h, fun _ => rfl⟩
  | cons s rest ih =>
    intro m
    cases hf : f s with
    | error e =>
      constructor
      · intro s' e' h
        simp only [firstError, hf] at h
        obtain ⟨rfl, rfl⟩ := h
        exact ⟨by simp [runStagesAux, hf], by simp [runStagesAux, hf, Manager.record_error,
          Manager.update_stage, Manager.save], by simp [runStagesAux, hf, Manager.record_error,
          Manager.update_stage, Manager.save], by simp [runStagesAux, hf, Manager.record_error,
          Manager.update_stage, Manager.save]⟩
      · intro h
        simp [firstError, hf] at h
    | ok u =>
      constructor
      · intro s' e' h
        simp only [firstError, hf] at h
        have h1 := (ih (m.update_stage s)).1 s' e' h
        simpa [runStagesAux, hf] using h1
      · intro h
        simp only [firstError, hf] at h
        have h2 := (ih (m.update_stage s)).2 h
        simpa [runStagesAux, hf] using h2

/-- Claim C8: when the first executed stage body raises, `run` catches
the exception, records it (message and stage, force-saved), leaves
`current_stage` at the failed stage, and returns `False`, so the process
exit code is 1 (non-zero); when every executed stage body succeeds, `run`
returns `True` and the exit code is 0. -/
theorem run_failure_handling :
    ∀ (m : Manager) (f : String → Except String Unit) (dur doneAt : DictVal),
      (∀ s e, firstError f (executedStages m.state.current_stage) = some (s, e) →
        (runPipeline f dur doneAt true m).1 = false
        ∧ exitCode (runPipeline f dur doneAt true m).1 = 1
        ∧ (runPipeline f dur doneAt true m).2.1.state.current_stage = some s
        ∧ (runPipeline f dur doneAt true m).2.1.state.error = some ⟨e, some s⟩
        ∧ (runPipeline f dur doneAt true m).2.1.fs
            = { canonical := some (some (runPipeline f dur doneAt true m).2.1.state),
                temp := none })
      ∧ (firstError f (executedStages m.state.current_stage) = none →
        (runPipeline f dur doneAt true m).1 = true
        ∧ exitCode (runPipeline f dur doneAt true m).1 = 0) := by
  intro m f dur doneAt
  have h := runStagesAux_error_spec f dur doneAt (executedStages m.state.current_stage) m
  constructor
  · intro s e he
    have h1 := h.1 s e he
    refine ⟨h1.1, ?_, h1.2.1, h1.2.2.1, h1.2.2.2⟩
    rw [show (runPipeline f dur doneAt true m).1 = false from h1.1]
    rfl
  · intro he
    have h2 := h.2 he
    refine ⟨h2, ?_⟩
    rw [show (runPipeline f dur doneAt true m).1 = true from h2]
    rfl

/-- Concrete witness for C8: a fresh run whose extract body raises
`"boom"` returns failure with the error recorded at stage `extract` and
a non-zero exit code. -/
theorem run_failure_handling_witness :
    (runPipeline (fun _ => .error "boom") (.nat 0) (.nat 0) true
        ⟨initialState "p", 50, ⟨none, none⟩⟩).1 = false
    ∧ exitCode (runPipeline (fun _ => .error "boom") (.nat 0) (.nat 0) true
        ⟨initialState "p", 50, ⟨none, none⟩⟩).1 = 1
    ∧ (runPipeline (fun _ => .error "boom") (.nat 0) (.nat 0) true
        ⟨initialState "p", 50, ⟨none, none⟩⟩).2.1.state.current_stage = some "extract"
    ∧ (runPipeline (fun _ => .error "boom") (.nat 0) (.nat 0) true
        ⟨initialState "p", 50, ⟨none, none⟩⟩).2.1.state.error
        = some ⟨"boom", some "extract"⟩ :=
  have h := (run_failure_handling ⟨initialState "p", 50, ⟨none, none⟩⟩
    (fun _ => .error "boom") (.nat 0) (.nat 0)).1 "extract" "boom" rfl
  ⟨h.1, h.2.1, h.2.2.1, h.2.2.2.1⟩

/-! ## Claim C7 (checkpoint load fallback) -/

/-- The load rule exactly as the specification sentence states it
("returns the parsed canonical snapshot when readable, otherwise falls
back to the temporary snapshot when that is readable, and otherwise
proceeds with a fresh initial state") — for comparison with the
program's `loadCheckpoint`. -/
def specLoadRule (init : PState) (fs : FS) : PState :=
  match fs.canonical with
  | some (some st) => st
  | _ =>
    match fs.temp with
    | some (some st) => st
    | _ => init

/-- Counterexample to C7 as stated: with the canonical snapshot absent
and a readable temporary snapshot present, `_load_checkpoint` starts
fresh (it returns before ever looking at the temporary file), while the
claim's rule would adopt the temporary snapshot. -/
theorem load_fallback_divergence :
    (loadCheckpoint (initialState "p") ⟨none, some (some (initialState "q"))⟩).2
      ≠ specLoadRule (initialState "p") ⟨none, some (some (initialState "q"))⟩ := by
  decide

/-- Claim C7 as amended: loading never raises (the embedded function is
total, mirroring the source's catch-all exception handlers), returns the
parsed canonical snapshot when it is readable, falls back to the
temporary snapshot only when the canonical file exists but is corrupt,
and otherwise — both files unusable, or the canonical file absent
(regardless of the temporary file) — proceeds with a fresh initial
state. -/
theorem load_checkpoint_fallback (init : PState) (fs : FS) :
    (∀ st, fs.canonical = some (some st) → loadCheckpoint init fs = (true, st))
    ∧ (∀ st, fs.canonical = some none → fs.temp = some (some st) →
        loadCheckpoint init fs = (true, st))
    ∧ (fs.canonical = some none → (fs.temp = none ∨ fs.temp = some none) →
        loadCheckpoint init fs = (false, init))
    ∧ (fs.canonical = none → loadCheckpoint init fs = (false, init)) := by
  refine ⟨?_, ?_, ?_, ?_⟩
  · intro st h
    simp [loadCheckpoint, h]
  · intro st h1 h2
    simp [loadCheckpoint, h1, h2]
  · intro h1 h2
    cases h2 with
    | inl h2 => simp [loadCheckpoint, h1, h2]
    | inr h2 => simp [loadCheckpoint, h1, h2]
  · intro h
    simp [loadCheckpoint, h]

/-- Concrete witness for the amended C7: a corrupt canonical snapshot
with a readable temporary one loads the temporary state. -/
theorem load_checkpoint_fallback_witness :
    loadCheckpoint (initialState "p") ⟨some none, some (some (initialState "q"))⟩
      = (true, initialState "q") :=
  (load_checkpoint_fallback (initialState "p")
    ⟨some none, some (some (initialState "q"))⟩).2.1 (initialState "q") rfl rfl

/-! ## Claim C1 (point identifiers) -/

/-- Claim C1 fails on the code: `generate_embeddings` assigns
`point_id` from a per-call counter starting at `0`, so the identifier
stored with a chunk does not depend on the document identifier at all.
Evaluating the code at the failing input — two documents `"A"` and `"B"`,
each with one single-chunk section — shows both first chunks stored under
point id `0` (distinct triples, identical identifier), and loading `"A"`
and then `"B"` leaves the vector store with no point for `"A"`: `"B"`'s
upsert silently overwrote it. -/
theorem point_id_counter_collision :
    let secs : List ContentSection := [ContentSection.mk "" "" "" "some body text"]
    let split0 : String → Nat → List String := fun t _ => [t]
    let enc : String → Nat := fun _ => 0
    let md5o : String → Nat := fun _ => 7
    let docA : LegDoc Nat := ⟨some "A", "", "", "", "", "", "", secs, []⟩
    let docB : LegDoc Nat := ⟨some "B", "", "", "", "", "", "", secs, []⟩
    let genA := generate_embeddings split0 enc docA 200
    let genB := generate_embeddings split0 enc docB 200
    ("A" : String) ≠ "B"
    ∧ (buildPoints md5o "A" genA.embeddings).map (·.id) = [0]
    ∧ (buildPoints md5o "B" genB.embeddings).map (·.id) = [0]
    ∧ (store_embeddings md5o (store_embeddings md5o ([] : VectorDb Nat) genA).2 genB).2.filter
        (fun p => p.legislation_id = "A") = []
    ∧ (store_embeddings md5o (store_embeddings md5o ([] : VectorDb Nat) genA).2 genB).2 ≠ [] := by
  decide

/-! ## Claim C2 (extract-phase skip) -/

/-- Claim C2 fails on the code: the scraper's search results carry the
key `doc_id` and no `id` key, so `_run_extract_phase`'s skip test
`item.get('id') in processed_ids` compares `None` against the
processed-id set and never matches.  Evaluating the code at the failing
input — a checkpoint with `processed_ids = ["a", "b"]` at stage
`extract`, and search items whose identifiers are `a`, `b`, `c` — shows
content fetched for all three items, not only for `c` as the claim
requires. -/
theorem extract_skip_never_fires :
    let itemA : SearchItem := ⟨"Act A", "uA", "a", "2024", "1", "ukpga", 8⟩
    let itemB : SearchItem := ⟨"Act B", "uB", "b", "2024", "2", "ukpga", 8⟩
    let itemC : SearchItem := ⟨"Act C", "uC", "c", "2024", "3", "ukpga", 8⟩
    let m0 : Manager :=
      ⟨{ initialState "p" with
          processed_ids := ["a", "b"], items_processed := 2,
          current_stage := some "extract" }, 50, ⟨none, none⟩⟩
    let fetch := fun (it : SearchItem) => some (FetchedDoc.mk ("sha" ++ it.url))
    itemA.get "id" = none
    ∧ (extractPhase m0 [itemA, itemB, itemC] 100 none fetch).1 = [itemA, itemB, itemC]
    ∧ [itemA, itemB, itemC] ≠ [itemC] := by
  decide

/-! ## Claim C3 (dual-store load idempotence) -/

theorem upsertDoc_idem (t : List (String × DocRow)) (k : String) (v : DocRow) :
    upsertDoc (upsertDoc t k v) k v = upsertDoc t k v := by
  induction t with
  | nil => simp [upsertDoc]
  | cons p t ih =>
    by_cases h : p.1 = k
    · simp [upsertDoc, h]
    · simp [upsertDoc, h, ih]

theorem sectionRows_legId (d : String) (c : List ContentSection) :
    ∀ r ∈ sectionRows d c, r.legislation_id = d := by
  intro r hr
  simp only [sectionRows, List.mem_map] at hr
  obtain ⟨p, _, rfl⟩ := hr
  rfl

theorem embRows_legId {Vec : Type} (d : String) (es : List (EmbeddingEntry Vec)) :
    ∀ r ∈ embRows d es, r.legislation_id = d := by
  intro r hr
  simp only [embRows, List.mem_map] at hr
  obtain ⟨e, _, rfl⟩ := hr
  rfl

theorem filter_append_eq_of_all {α : Type} (xs ys : List α) (p : α → Bool)
    (h : ∀ y ∈ ys, p y = false) : (xs ++ ys).filter p = xs.filter p := by
  have h2 : ys.filter p = [] :=
    List.filter_eq_nil_iff.mpr (fun a ha => by simp [h a ha])
  rw [List.filter_append, h2, List.append_nil]

theorem filter_self_of_filter {α : Type} (xs : List α) (p : α → Bool) :
    (xs.filter p).filter p = xs.filter p :=
  List.filter_eq_self.mpr (fun _ ha => (List.mem_filter.mp ha).2)

theorem sections_refilter (secs : List SectionRow) (d : String)
    (c : List ContentSection) :
    ((secs.filter (fun r => r.legislation_id ≠ d) ++ sectionRows d c).filter
        (fun r => r.legislation_id ≠ d))
      = secs.filter (fun r => r.legislation_id ≠ d) := by
  rw [filter_append_eq_of_all _ _ _ (fun y hy => by
      simp [sectionRows_legId d c y hy]),
    filter_self_of_filter]

theorem embrefs_refilter {Vec : Type} (embs : List EmbRefRow) (d : String)
    (es : List (EmbeddingEntry Vec)) :
    ((embs.filter (fun r => r.legislation_id ≠ d) ++ embRows d es).filter
        (fun r => r.legislation_id ≠ d))
      = embs.filter (fun r => r.legislation_id ≠ d) := by
  rw [filter_append_eq_of_all _ _ _ (fun y hy => by
      simp [embRows_legId d es y hy]),
    filter_self_of_filter]

theorem embInsertOk_after {Vec : Type} (embs : List EmbRefRow) (d : String)
    (es : List (EmbeddingEntry Vec)) :
    embInsertOk (embs.filter (fun r => r.legislation_id ≠ d) ++ embRows d es) d es
      ↔ embInsertOk embs d es := by
  unfold embInsertOk
  rw [embrefs_refilter]

theorem store_legislation_idem {Vec : Type} (db : SqlDb) (doc : LegDoc Vec) :
    store_legislation (store_legislation db doc).2 doc = store_legislation db doc := by
  cases hid : doc.id with
  | none => simp [store_legislation, hid]
  | some legId =>
    by_cases hemb : doc.embeddings.isEmpty
    · by_cases hcont : doc.content.isEmpty
      · simp only [store_legislation, hid, hemb, hcont, if_true, upsertDoc_idem]
      · simp only [store_legislation, hid, hemb, hcont, if_true, if_false,
          Bool.false_eq_true, upsertDoc_idem, sections_refilter]
    · by_cases hok : embInsertOk db.legislation_embeddings legId doc.embeddings
      · have hok2 := (embInsertOk_after db.legislation_embeddings legId doc.embeddings).mpr hok
        by_cases hcont : doc.content.isEmpty
        · simp only [store_legislation, hid, hemb, hcont, if_true, if_false,
            Bool.false_eq_true, upsertDoc_idem, embrefs_refilter, hok, hok2, if_pos,
            embInsertOk_after]
        · simp only [store_legislation, hid, hemb, hcont, if_true, if_false,
            Bool.false_eq_true, upsertDoc_idem, sections_refilter, embrefs_refilter,
            hok, hok2, if_pos, embInsertOk_after]
      · have h1 : store_legislation db doc = (false, db) := by
          simp only [store_legislation, hid]
          rw [if_neg (by simpa using hemb), if_neg hok]
        rw [h1]
        exact h1

theorem mem_upsertPoints {Vec : Type} (pts : List (VPoint Vec)) :
    ∀ (L : VectorDb Vec) (q : VPoint Vec), q ∈ upsertPoints L pts → q ∈ L ∨ q ∈ pts := by
  induction pts with
  | nil =>
    intro L q h
    exact Or.inl h
  | cons p rest ih =>
    intro L q h
    rcases ih (upsertPoint L p) q h with h1 | h1
    · rcases List.mem_append.mp h1 with h2 | h2
      · exact Or.inl (List.mem_filter.mp h2).1
      · exact Or.inr (List.mem_cons.mpr (Or.inl (List.mem_singleton.mp h2)))
    · exact Or.inr (List.mem_cons_of_mem _ h1)

theorem upsertPoints_eq_filter_append {Vec : Type} (pts : List (VPoint Vec)) :
    ∀ L : VectorDb Vec,
      upsertPoints L pts
        = L.filter (fun q => pts.all (fun p => q.id ≠ p.id)) ++ upsertPoints [] pts := by
  induction pts with
  | nil =>
    intro L
    simp [upsertPoints]
  | cons p rest ih =>
    intro L
    show upsertPoints (upsertPoint L p) rest = _
    rw [ih (upsertPoint L p),
      show upsertPoints ([] : VectorDb Vec) (p :: rest)
        = upsertPoints (upsertPoint [] p) rest from rfl,
      ih (upsertPoint [] p)]
    simp only [upsertPoint, List.filter_append, List.filter_filter, List.filter_nil,
      List.nil_append, List.append_assoc]
    congr 1
    apply List.filter_congr
    intro a _
    simp [List.all_cons, Bool.and_comm]

theorem buildPoints_legId {Vec : Type} (md5trunc : String → Nat) (d : String)
    (es : List (EmbeddingEntry Vec)) :
    ∀ q ∈ buildPoints md5trunc d es, q.legislation_id = d := by
  intro q hq
  simp only [buildPoints, List.mem_filterMap] at hq
  obtain ⟨e, _, hfe⟩ := hq
  cases hv : e.vector with
  | none => simp [hv] at hfe
  | some v =>
    rw [hv] at hfe
    simp only [Option.some.injEq] at hfe
    rw [← hfe]

theorem delete_of_upsert {Vec : Type} (d : String) (pts : List (VPoint Vec))
    (L : VectorDb Vec) (hpts : ∀ q ∈ pts, q.legislation_id = d)
    (hL : ∀ q ∈ L, q.legislation_id ≠ d) :
    deleteLegislation (upsertPoints L pts) d
      = L.filter (fun q => pts.all (fun p => q.id ≠ p.id)) := by
  rw [upsertPoints_eq_filter_append]
  unfold deleteLegislation
  rw [List.filter_append]
  have h1 : (upsertPoints ([] : VectorDb Vec) pts).filter
      (fun q => decide (q.legislation_id ≠ d)) = [] :=
    List.filter_eq_nil_iff.mpr (fun q hq => by
      rcases mem_upsertPoints pts [] q hq with h | h
      · cases h
      · simp [hpts q h])
  have h2 : (L.filter (fun q => pts.all fun p => decide (q.id ≠ p.id))).filter
        (fun q => decide (q.legislation_id ≠ d))
      = L.filter (fun q => pts.all fun p => decide (q.id ≠ p.id)) :=
    List.filter_eq_self.mpr (fun q hq => by
      simp [hL q (List.mem_filter.mp hq).1])
  rw [h1, h2, List.append_nil]

theorem upsert_of_refiltered {Vec : Type} (pts : List (VPoint Vec)) (L : VectorDb Vec) :
    upsertPoints (L.filter (fun q => pts.all (fun p => q.id ≠ p.id))) pts
      = upsertPoints L pts := by
  rw [upsertPoints_eq_filter_append, upsertPoints_eq_filter_append pts L,
    filter_self_of_filter]

theorem store_embeddings_idem (md5trunc : String → Nat) {Vec : Type}
    (ps : VectorDb Vec) (doc : LegDoc Vec) :
    store_embeddings md5trunc (store_embeddings md5trunc ps doc).2 doc
      = store_embeddings md5trunc ps doc := by
  by_cases hemb : doc.embeddings.isEmpty
  · simp [store_embeddings, hemb]
  · cases hid : doc.id with
    | none => simp [store_embeddings, hemb, hid]
    | some legId =>
      by_cases hleg : legId = ""
      · simp [store_embeddings, hemb, hid, hleg]
      · have hmain : store_embeddings md5trunc ps doc
            = (true, upsertPoints (deleteLegislation ps legId)
                (buildPoints md5trunc legId doc.embeddings)) := by
          simp [store_embeddings, hemb, hid, hleg]
        have hmain2 : store_embeddings md5trunc
              (upsertPoints (deleteLegislation ps legId)
                (buildPoints md5trunc legId doc.embeddings)) doc
            = (true, upsertPoints
                (deleteLegislation
                  (upsertPoints (deleteLegislation ps legId)
                    (buildPoints md5trunc legId doc.embeddings)) legId)
                (buildPoints md5trunc legId doc.embeddings)) := by
          simp [store_embeddings, hemb, hid, hleg]
        rw [hmain, hmain2,
          delete_of_upsert legId (buildPoints md5trunc legId doc.embeddings)
            (deleteLegislation ps legId)
            (buildPoints_legId md5trunc legId doc.embeddings)
            (fun q hq => by
              have := List.mem_filter.mp hq
              simpa using this.2),
          upsert_of_refiltered]

/-- Claim C3: calling the dual-store loader (the structured-store write
followed by the vector-store write) twice in succession with the same
record leaves both stores — and both success flags — exactly as one call
does: both writes are delete-then-insert keyed by the document
identifier, so the second call removes precisely what the first inserted
and re-inserts the same rows and points. -/
theorem dual_store_load_idempotent :
    ∀ (Vec : Type) (md5trunc : String → Nat) (sql : SqlDb) (vec : VectorDb Vec)
      (doc : LegDoc Vec),
      loadDocument md5trunc (loadDocument md5trunc sql vec doc).2.1
          (loadDocument md5trunc sql vec doc).2.2 doc
        = loadDocument md5trunc sql vec doc := by
  intro Vec md5trunc sql vec doc
  simp only [loadDocument]
  rw [store_legislation_idem, store_embeddings_idem]

end Pipeline
